import Mathlib

/-!
# Verification of the `env_cfg` typed environment-configuration store

Shallow embedding of `src/cpp-envlib/libenv.h` (namespace `env_cfg`, class
`EnvCfg`).  C++ `int` / `long long` payloads are modelled as `Int` with the
32/64-bit range checks written out explicitly where the source performs them
(`std::stoi` / `std::stoll`).  A C++ `double` value is never inspected by any
operation modelled here (it is only stored and copied), so a successfully
parsed double is represented by its source text wrapped in `DoubleVal`;
callers' default doubles carry an arbitrary `DoubleVal`.  Exceptions become
`Except`; the process environment becomes an explicit map
`String → Option String`.
-/

namespace EnvCfgModel

/-- Mirror of `enum class EnvCfgTypes` (libenv.h lines 15-22). -/
inductive EnvCfgTypes where
  | string_
  | int_
  | double_
  | longlong_
  | bool_
  deriving DecidableEq, Repr

/-- The five template types `T` admitted by the `enable_if` constraint on
`EnvCfg`'s template members: `int`, `double`, `long long`, `std::string`,
`bool`. -/
inductive CfgType where
  | int
  | double
  | longlong
  | string
  | bool
  deriving DecidableEq, Repr

/-- Stand-in for a C++ `double` value: no modelled operation looks inside a
double (it is only produced by `std::stod`, stored, and copied out), so we
carry the source text it was parsed from, or an arbitrary tag for
caller-supplied defaults. -/
structure DoubleVal where
  rep : String
  deriving DecidableEq, Repr

/-- One alternative of `EnvValueMember = optional<variant<int, double,
long long, std::string, bool>>` (libenv.h line 304): a stored scalar. -/
inductive Scalar where
  | intV (v : Int)
  | doubleV (v : DoubleVal)
  | longlongV (v : Int)
  | strV (s : String)
  | boolV (b : Bool)
  deriving DecidableEq, Repr

/-- The variant alternative a `Scalar` holds. -/
def Scalar.kind : Scalar → CfgType
  | .intV _ => .int
  | .doubleV _ => .double
  | .longlongV _ => .longlong
  | .strV _ => .string
  | .boolV _ => .bool

/-- One alternative of the public `EnvValue = optional<variant<int, double,
long long, std::string, bool, char*, EnvCfgTypes>>` (libenv.h line 96).
The `char*` alternative is omitted: a string literal in an `EnvMap`
initialiser selects the `std::string` alternative (`char*` is not
constructible from `const char*`), so `char*` is unreachable from the
five-kind data model the claims range over. -/
inductive EnvVariant where
  | vInt (v : Int)
  | vDouble (v : DoubleVal)
  | vLonglong (v : Int)
  | vStr (s : String)
  | vBool (b : Bool)
  | vType (t : EnvCfgTypes)
  deriving DecidableEq, Repr

/-- `EnvCfg::EnvValue`: an optional declaration variant.  `none` models an
`EnvValue` holding `std::nullopt` (its `.value()` throws
`std::bad_optional_access` inside `ProcessEntry`). -/
abbrev EnvValue := Option EnvVariant

/-- A declaration batch, the contents of an `EnvMap`
(`unordered_map<string, EnvValue>`), as a list of key/declaration pairs in
iteration order (the `unordered_map` key uniqueness becomes a `Nodup`
hypothesis where a claim needs it). -/
abbrev Batch := List (String × EnvValue)

/-- The live process environment consumed through `GetEnv`:
`getenv` returns the value or null. -/
abbrev Env := String → Option String

/-- `EnvCfg::GetEnv` (libenv.h lines 600-607): the raw text of a variable,
an absent variable yielding the empty string. -/
def GetEnv (env : Env) (env_name : String) : String :=
  (env env_name).getD ""

/-- The store `m_env_result : unordered_map<string, EnvValueMember>`
(libenv.h line 355): partial map from name to resolved entry. -/
abbrev Store := String → Option (Option Scalar)

/-- The store a freshly constructed `EnvCfg` owns. -/
def Store.empty : Store := fun _ => none

/-- `m_env_result[env_name] = e`: write one resolved entry. -/
def Store.set (s : Store) (env_name : String) (e : Option Scalar) : Store :=
  fun m => if m = env_name then some e else s m

/-- Parse errors thrown out of `GetEnvByType` as `EnvBadGet`:
`"expected <type> ..."` (from `std::invalid_argument`) and
`"<type> overflow ..."` (from `std::out_of_range`). -/
inductive ParseErr where
  | invalidFormat
  | overflow
  deriving DecidableEq, Repr

/-! ## The numeric parser: `std::stoi` / `std::stoll` semantics

`std::stoi(s)` wraps `strtol(s, &p, 10)`: leading C whitespace is skipped,
an optional single `+`/`-` sign is read, then a maximal run of decimal
digits; if that run is empty the call throws `std::invalid_argument`, and
the remainder of the string after the digit run is ignored.  The converted
value out of `int` range (for `stoi`) or `long long` range (for `stoll`)
throws `std::out_of_range`; modelling the digits at arbitrary precision and
range-checking afterwards classifies every input identically. -/

/-- C `isspace` in the default locale, the characters `strtol` skips. -/
def isSpaceC (c : Char) : Bool :=
  c = ' ' || c = '\t' || c = '\n' || c = '\x0b' || c = '\x0c' || c = '\x0d'

/-- Numeric value of a run of decimal digits. -/
def digitsToNat : List Char → Nat → Nat
  | [], acc => acc
  | c :: cs, acc => digitsToNat cs (acc * 10 + (c.toNat - '0'.toNat))

/-- `strtol`/`strtoll` in base 10 at arbitrary precision: `none` when no
digits could be converted, otherwise the signed value of the maximal digit
run (trailing characters ignored). -/
def strtolModel (s : String) : Option Int :=
  let cs := s.data.dropWhile isSpaceC
  let (neg, cs₁) : Bool × List Char :=
    match cs with
    | '-' :: rest => (true, rest)
    | '+' :: rest => (false, rest)
    | rest => (false, rest)
  let ds := cs₁.takeWhile Char.isDigit
  match ds with
  | [] => none
  | _ =>
    let n : Int := Int.ofNat (digitsToNat ds 0)
    some (if neg then -n else n)

/-- `std::stoi` / `std::stoll` with the target type's bounds `lo`/`hi`:
`invalid_argument` when no digits convert, `out_of_range` when the value
falls outside `[lo, hi]`. -/
def parseIntKind (s : String) (lo hi : Int) : Except ParseErr Int :=
  match strtolModel s with
  | none => .error .invalidFormat
  | some v => if v < lo ∨ hi < v then .error .overflow else .ok v

def int32Min : Int := -(2 ^ 31)
def int32Max : Int := 2 ^ 31 - 1
def int64Min : Int := -(2 ^ 63)
def int64Max : Int := 2 ^ 63 - 1

/-! ## `std::stod` success set

`GetEnvByType<double>` only distinguishes `std::invalid_argument` from
success (`std::stod`'s `std::out_of_range` on magnitude overflow falls into
the source's catch-all and is not exercised by any claim; the model treats
`stod` as failing only on invalid format).  `strtod` accepts, after optional
whitespace and sign: a decimal significand (digits, or digits `.` digits, or
`.` digits) with an optional well-formed exponent, a hexadecimal significand
after `0x`/`0X`, or case-insensitive `inf`/`infinity`/`nan`. -/

/-- A hexadecimal digit. -/
def isHexDigitC (c : Char) : Bool :=
  c.isDigit || ('a' ≤ c && c ≤ 'f') || ('A' ≤ c && c ≤ 'F')

/-- Case-insensitive prefix test on character lists. -/
def headMatchesCI : List Char → List Char → Bool
  | [], _ => true
  | _ :: _, [] => false
  | p :: ps, c :: cs => (p.toLower = c.toLower) && headMatchesCI ps cs

/-- Does `strtod` convert a nonempty prefix of `cs` (sign already
stripped)?  Covers decimal and hex significands and `inf`/`nan`. -/
def strtodBody (cs : List Char) : Bool :=
  if headMatchesCI "inf".data cs then true
  else if headMatchesCI "nan".data cs then true
  else if headMatchesCI "0x".data cs then
    (cs.drop 2).takeWhile (fun c => isHexDigitC c || c = '.') ≠ [] &&
      ((cs.drop 2).takeWhile (fun c => isHexDigitC c || c = '.')).any isHexDigitC
  else
    let intPart := cs.takeWhile Char.isDigit
    let rest := cs.drop intPart.length
    match rest with
    | '.' :: tail => intPart ≠ [] || tail.takeWhile Char.isDigit ≠ []
    | _ => intPart ≠ []

/-- `std::stod`: `invalid_argument` when `strtod` converts nothing;
otherwise the parsed double, represented by its source text. -/
def parseDouble (s : String) : Except ParseErr DoubleVal :=
  let cs := s.data.dropWhile isSpaceC
  let body : List Char :=
    match cs with
    | '-' :: rest => rest
    | '+' :: rest => rest
    | rest => rest
  if strtodBody body then .ok ⟨s⟩ else .error .invalidFormat

/-- The `std::transform`/`std::tolower` pass in the `bool` branch of
`GetEnvByType` (libenv.h lines 497-498): ASCII lowering. -/
def asciiLower (s : String) : String :=
  s.map Char.toLower

/-- `EnvCfg::GetEnvByType<T>` (libenv.h lines 423-519) with `T` fixed by
`k`: read the raw text via `GetEnv`; empty text (absent or empty variable)
yields `nullopt`; otherwise parse per type.  `string` returns the raw text
unchanged; `int` / `long long` go through `stoi` / `stoll`; `double`
through `stod`; `bool` lowercases and accepts exactly `true` / `false`. -/
def GetEnvByType (env : Env) (k : CfgType) (env_name : String) :
    Except ParseErr (Option Scalar) :=
  let result := GetEnv env env_name
  if result = "" then .ok none
  else
    match k with
    | .string => .ok (some (.strV result))
    | .int =>
      (parseIntKind result int32Min int32Max).map fun v => some (.intV v)
    | .double =>
      (parseDouble result).map fun v => some (.doubleV v)
    | .longlong =>
      (parseIntKind result int64Min int64Max).map fun v => some (.longlongV v)
    | .bool =>
      if asciiLower result = "true" then .ok (some (.boolV true))
      else if asciiLower result = "false" then .ok (some (.boolV false))
      else .error .invalidFormat

/-! ## Initialization protocol -/

/-- `HandleEnumType`'s switch (libenv.h lines 631-654): the template type
selected for each `EnvCfgTypes` tag. -/
def cfgKind : EnvCfgTypes → CfgType
  | .string_ => .string
  | .int_ => .int
  | .double_ => .double
  | .longlong_ => .longlong
  | .bool_ => .bool

/-- The template type `TryHandleType` dispatches on for a non-enum variant
alternative, and `cfgKind` for the enum tag: the declared kind of a
declaration variant. -/
def EnvVariant.declKind : EnvVariant → CfgType
  | .vInt _ => .int
  | .vDouble _ => .double
  | .vLonglong _ => .longlong
  | .vStr _ => .string
  | .vBool _ => .bool
  | .vType t => cfgKind t

/-- `std::holds_alternative<ValueType>` + `std::get_if` in `HandleType`
(libenv.h lines 534-544): the scalar a declaration variant holds when that
variant's alternative is the template type `k`, `none` otherwise (in
particular `none` when the variant holds an `EnvCfgTypes` tag). -/
def variantHolds : EnvVariant → CfgType → Option Scalar
  | .vInt v, .int => some (.intV v)
  | .vDouble v, .double => some (.doubleV v)
  | .vLonglong v, .longlong => some (.longlongV v)
  | .vStr v, .string => some (.strV v)
  | .vBool v, .bool => some (.boolV v)
  | _, _ => none

/-- `EnvCfg::HandleType<T>` (libenv.h lines 521-555) with `T` fixed by `k`:
if `GetEnvByType` yields a value, store it (a thrown parse error
propagates); if it yields `nullopt` (absent/empty variable), store the
declaration's own scalar when it holds one of type `k`, else store
`nullopt`. -/
def HandleType (env : Env) (k : CfgType) (value : EnvVariant)
    (env_name : String) (s : Store) : Except ParseErr Store :=
  match GetEnvByType env k env_name with
  | .error e => .error e
  | .ok (some env_val) => .ok (s.set env_name (some env_val))
  | .ok none =>
    match variantHolds value k with
    | some d => .ok (s.set env_name (some d))
    | none => .ok (s.set env_name none)

/-- What `ProcessEntry` rethrows as `EnvException`: either the parse error
from `GetEnvByType` (wrapped `EnvBadGet`), or the `std::bad_optional_access`
from calling `.value()` on an `EnvValue` holding `std::nullopt`. -/
inductive EntryErr where
  | parseFail (e : ParseErr)
  | badOptionalAccess
  deriving DecidableEq, Repr

/-- The error `InitEnv` propagates, tagged with the offending name. -/
structure InitErr where
  name : String
  err : EntryErr
  deriving DecidableEq, Repr

/-- `EnvCfg::ProcessEntry` (libenv.h lines 609-629): visit the declaration
variant; an `EnvCfgTypes` tag dispatches `HandleEnumType` → `HandleType<T>`
for the hinted type, any other alternative dispatches `TryHandleType` →
`HandleType<T>` for that alternative's own type.  Any exception is
rethrown as `EnvException`; the failing entry writes nothing. -/
def ProcessEntry (env : Env) (entry : String × EnvValue) (s : Store) :
    Except InitErr Store :=
  match entry.2 with
  | none => .error ⟨entry.1, .badOptionalAccess⟩
  | some dv =>
    match HandleType env dv.declKind dv entry.1 s with
    | .error e => .error ⟨entry.1, .parseFail e⟩
    | .ok s' => .ok s'

/-- `EnvCfg::InitEnv` (libenv.h lines 571-577): process the batch's entries
in order; the first failing entry aborts the loop, the exception carrying
out of `InitEnv` while `m_env_result` keeps every write already made (the
error case therefore also returns the store at the abort point). -/
def InitEnv (env : Env) : Batch → Store → Except (InitErr × Store) Store
  | [], s => .ok s
  | entry :: rest, s =>
    match ProcessEntry env entry s with
    | .error e => .error (e, s)
    | .ok s' => InitEnv env rest s'

/-- The store after an `InitEnv` call, whether it returned or threw. -/
def stateOf : Except (InitErr × Store) Store → Store
  | .ok s => s
  | .error (_, s) => s

/-! ## Read operations -/

/-- The three `EnvBadGet` cases of `EnvCfg::Get` (libenv.h lines 371-391):
`"not found"`, `"no value for"`, `"invalid type for"`. -/
inductive GetErr where
  | notFound
  | noValue
  | typeMismatch
  deriving DecidableEq, Repr

/-- `EnvCfg::Get<T>` (libenv.h lines 371-391) with `T` fixed by `k`:
missing key throws not-found; an entry holding `nullopt` throws no-value;
`std::get<T>` on a variant holding another alternative throws, rethrown as
type-mismatch; otherwise the stored value is returned by copy. -/
def Get (s : Store) (k : CfgType) (env_name : String) : Except GetErr Scalar :=
  match s env_name with
  | none => .error .notFound
  | some none => .error .noValue
  | some (some v) => if v.kind = k then .ok v else .error .typeMismatch

/-- `EnvCfg::GetN<T>` (libenv.h lines 393-406) with `T` fixed by `k`:
`nullopt` on missing key or empty entry; `std::get_if<T>` yields the value
only on exact alternative match, else `nullopt`.  Total — the C++ method is
`noexcept`. -/
def GetN (s : Store) (k : CfgType) (env_name : String) : Option Scalar :=
  match s env_name with
  | none => none
  | some none => none
  | some (some v) => if v.kind = k then some v else none

/-- `EnvCfg::IsType<T>` (libenv.h lines 408-421) with `T` fixed by `k`. -/
def IsType (s : Store) (k : CfgType) (env_name : String) : Bool :=
  match s env_name with
  | none => false
  | some none => false
  | some (some v) => v.kind = k

/-- `EnvCfg::HasValue` (libenv.h lines 656-668). -/
def HasValue (s : Store) (env_name : String) : Bool :=
  match s env_name with
  | none => false
  | some none => false
  | some (some _) => true

/-! ## The deferred wrapper `GetW` -/

/-- `EnvCfg::GetW<T>(name).default_value(fb)` (libenv.h lines 68-71 and
250-269) with `T` fixed by `k`: `GetW` runs `GetEnvByType` once; a thrown
`EnvBadGet`/`EnvException` is captured into the wrapper with an empty
value, an empty result (absent/empty variable) also leaves the value empty,
and `default_value` is `m_value.value_or(fb)` — `noexcept`, so it returns
the parsed value exactly when the one-off read and parse succeeded and the
fallback otherwise. -/
def GetW_defaultValue (env : Env) (k : CfgType) (env_name : String)
    (fb : Scalar) : Scalar :=
  match GetEnvByType env k env_name with
  | .ok (some v) => v
  | .ok none => fb
  | .error _ => fb

/-! ## Shared helper lemmas -/

/-- A value returned by `GetEnvByType` for template type `k` has kind `k`:
each parsing branch constructs the alternative of its own type. -/
theorem GetEnvByType_kind {env : Env} {k : CfgType} {n : String} {v : Scalar}
    (h : GetEnvByType env k n = .ok (some v)) : v.kind = k := by
  unfold GetEnvByType at h
  by_cases he : GetEnv env n = ""
  · simp [he] at h
  · cases k <;> simp [he] at h
    · cases hp : parseIntKind (GetEnv env n) int32Min int32Max <;>
        rw [hp] at h <;> simp [Except.map] at h
      subst h; rfl
    · cases hp : parseDouble (GetEnv env n) <;>
        rw [hp] at h <;> simp [Except.map] at h
      subst h; rfl
    · cases hp : parseIntKind (GetEnv env n) int64Min int64Max <;>
        rw [hp] at h <;> simp [Except.map] at h
      subst h; rfl
    · subst h; rfl
    · by_cases ht : asciiLower (GetEnv env n) = "true"
      · simp [ht] at h; subst h; rfl
      · by_cases hf : asciiLower (GetEnv env n) = "false"
        · simp [ht, hf] at h; subst h; rfl
        · simp [ht, hf] at h

/-- A scalar extracted from a declaration variant by `variantHolds` for
template type `k` has kind `k`. -/
theorem variantHolds_kind {dv : EnvVariant} {k : CfgType} {d : Scalar}
    (h : variantHolds dv k = some d) : d.kind = k := by
  cases dv <;> cases k <;> simp [variantHolds] at h <;> subst h <;> rfl

/-- `HandleType` either throws or writes exactly one entry under its name:
`nullopt`, or a scalar of the dispatched type `k`. -/
theorem HandleType_ok {env : Env} {k : CfgType} {dv : EnvVariant}
    {n : String} {s s' : Store} (h : HandleType env k dv n s = .ok s') :
    s' = s.set n none ∨ ∃ v : Scalar, s' = s.set n (some v) ∧ v.kind = k := by
  unfold HandleType at h
  cases hg : GetEnvByType env k n with
  | error e => rw [hg] at h; exact absurd h (by simp)
  | ok o =>
    rw [hg] at h
    cases o with
    | some v =>
      simp only [Except.ok.injEq] at h
      exact Or.inr ⟨v, h.symm, GetEnvByType_kind hg⟩
    | none =>
      cases hv : variantHolds dv k with
      | some d =>
        rw [hv] at h; simp only [Except.ok.injEq] at h
        exact Or.inr ⟨d, h.symm, variantHolds_kind hv⟩
      | none =>
        rw [hv] at h; simp only [Except.ok.injEq] at h
        exact Or.inl h.symm

/-- `ProcessEntry` either throws (writing nothing) or writes exactly one
entry under the entry's name: `nullopt`, or a scalar whose kind is the
declared kind of the entry's declaration variant. -/
theorem ProcessEntry_ok {env : Env} {n : String} {d : EnvValue}
    {s s' : Store} (h : ProcessEntry env (n, d) s = .ok s') :
    ∃ dv : EnvVariant, d = some dv ∧
      (s' = s.set n none ∨
        ∃ v : Scalar, s' = s.set n (some v) ∧ v.kind = dv.declKind) := by
  unfold ProcessEntry at h
  cases d with
  | none => exact absurd h (by simp)
  | some dv =>
    simp only at h
    cases hh : HandleType env dv.declKind dv n s with
    | error e => rw [hh] at h; exact absurd h (by simp)
    | ok s₁ =>
      rw [hh] at h; simp only [Except.ok.injEq] at h
      exact ⟨dv, rfl, h ▸ HandleType_ok hh⟩

/-- Reading any other name is unaffected by a single entry write. -/
theorem Store.set_ne {s : Store} {n m : String} {e : Option Scalar}
    (h : m ≠ n) : s.set n e m = s m := by
  simp [Store.set, h]

/-- A store with one resolved value and one `nullopt` entry, exercising
every branch of the read operations. -/
def storeEx : Store :=
  (Store.empty.set "A" (some (.intV 5))).set "B" none

/-! ## C3 / C4: the strict and the optional accessor -/

/-- C3: `Get<T>(name)` fails with `NotFound` when the name was never
declared, with `NoValue` when the entry resolved to `nullopt`, with
`TypeMismatch` when a value is present whose kind differs from the
requested type, and otherwise returns a copy of the stored value. -/
theorem C3_get_strict (s : Store) (k : CfgType) (n : String) :
    (s n = none → Get s k n = .error .notFound) ∧
    (s n = some none → Get s k n = .error .noValue) ∧
    (∀ v : Scalar, s n = some (some v) → v.kind ≠ k →
      Get s k n = .error .typeMismatch) ∧
    (∀ v : Scalar, s n = some (some v) → v.kind = k → Get s k n = .ok v) :=
  ⟨fun h => by simp [Get, h], fun h => by simp [Get, h],
   fun v h hk => by simp [Get, h, hk], fun v h hk => by simp [Get, h, hk]⟩

/-- C3 witness: the four branches of `Get` on the concrete store
`storeEx`. -/
theorem C3_get_strict_witness :
    storeEx "Z" = none ∧ Get storeEx .int "Z" = .error .notFound ∧
    storeEx "B" = some none ∧ Get storeEx .int "B" = .error .noValue ∧
    Get storeEx .string "A" = .error .typeMismatch ∧
    Get storeEx .int "A" = .ok (.intV 5) :=
  ⟨by decide, (C3_get_strict storeEx .int "Z").1 (by decide),
   by decide, (C3_get_strict storeEx .int "B").2.1 (by decide),
   (C3_get_strict storeEx .string "A").2.2.1 (.intV 5) (by decide) (by decide),
   (C3_get_strict storeEx .int "A").2.2.2 (.intV 5) (by decide) rfl⟩

/-- C4: `GetOptional<T>` (`GetN`) is total — the C++ method is `noexcept`
and the model is a total function into `Option` — and under each of the
three failure conditions of `Get` (undeclared name, entry resolved to
`nullopt`, kind mismatch) it returns `none`, otherwise `some` of a copy of
the stored value. -/
theorem C4_getN_absorbs (s : Store) (k : CfgType) (n : String) :
    (s n = none → GetN s k n = none) ∧
    (s n = some none → GetN s k n = none) ∧
    (∀ v : Scalar, s n = some (some v) → v.kind ≠ k → GetN s k n = none) ∧
    (∀ v : Scalar, s n = some (some v) → v.kind = k → GetN s k n = some v) :=
  ⟨fun h => by simp [GetN, h], fun h => by simp [GetN, h],
   fun v h hk => by simp [GetN, h, hk], fun v h hk => by simp [GetN, h, hk]⟩

/-- C4 witness: the four branches of `GetN` on the concrete store
`storeEx`. -/
theorem C4_getN_absorbs_witness :
    GetN storeEx .int "Z" = none ∧ GetN storeEx .int "B" = none ∧
    GetN storeEx .string "A" = none ∧ GetN storeEx .int "A" = some (.intV 5) :=
  ⟨(C4_getN_absorbs storeEx .int "Z").1 (by decide),
   (C4_getN_absorbs storeEx .int "B").2.1 (by decide),
   (C4_getN_absorbs storeEx .string "A").2.2.1 (.intV 5) (by decide) (by decide),
   (C4_getN_absorbs storeEx .int "A").2.2.2 (.intV 5) (by decide) rfl⟩

/-! ## C6 / C7: absent or empty live value -/

/-- An environment with no variable set. -/
def envNone : Env := fun _ => none

/-- C6: a `TypeHint` declaration whose live value is absent or empty
(`GetEnv` yields `""` in both cases) initializes without error, the entry
resolves to `nullopt`, and `HasValue` is `false` afterwards. -/
theorem C6_typeHint_unset (env : Env) (n : String) (t : EnvCfgTypes)
    (s : Store) (h : GetEnv env n = "") :
    InitEnv env [(n, some (.vType t))] s = .ok (s.set n none) ∧
    (s.set n none) n = some none ∧
    HasValue (s.set n none) n = false := by
  refine ⟨?_, by simp [Store.set], by simp [HasValue, Store.set]⟩
  have hg : GetEnvByType env (cfgKind t) n = .ok none := by
    unfold GetEnvByType; simp [h]
  have hv : variantHolds (.vType t) (cfgKind t) = none := by
    cases t <;> rfl
  simp [InitEnv, ProcessEntry, EnvVariant.declKind, HandleType, hg, hv]

/-- C6 witness: name `"A"` hinted `int_` against the empty environment. -/
theorem C6_typeHint_unset_witness :
    GetEnv envNone "A" = "" ∧
    InitEnv envNone [("A", some (.vType .int_))] Store.empty =
      .ok (Store.empty.set "A" none) ∧
    (Store.empty.set "A" none) "A" = some none ∧
    HasValue (Store.empty.set "A" none) "A" = false :=
  ⟨rfl, (C6_typeHint_unset envNone "A" .int_ Store.empty rfl).1,
   (C6_typeHint_unset envNone "A" .int_ Store.empty rfl).2.1,
   (C6_typeHint_unset envNone "A" .int_ Store.empty rfl).2.2⟩

/-- The `EnvMap` declaration variant a caller-supplied default scalar
occupies (the non-enum alternatives of `EnvValue`). -/
def scalarVariant : Scalar → EnvVariant
  | .intV v => .vInt v
  | .doubleV v => .vDouble v
  | .longlongV v => .vLonglong v
  | .strV s => .vStr s
  | .boolV b => .vBool b

theorem scalarVariant_declKind (d : Scalar) :
    (scalarVariant d).declKind = d.kind := by
  cases d <;> rfl

theorem variantHolds_scalarVariant (d : Scalar) :
    variantHolds (scalarVariant d) d.kind = some d := by
  cases d <;> rfl

/-- C7: a `DefaultScalar` declaration whose live value is absent or empty
resolves the entry to the default; `Get` at the default's kind then returns
exactly the default and `IsType` of that kind is `true`. -/
theorem C7_default_unset (env : Env) (n : String) (d : Scalar) (s : Store)
    (h : GetEnv env n = "") :
    InitEnv env [(n, some (scalarVariant d))] s = .ok (s.set n (some d)) ∧
    (s.set n (some d)) n = some (some d) ∧
    Get (s.set n (some d)) d.kind n = .ok d ∧
    IsType (s.set n (some d)) d.kind n = true := by
  refine ⟨?_, by simp [Store.set], by simp [Get, Store.set],
    by simp [IsType, Store.set]⟩
  have hg : GetEnvByType env d.kind n = .ok none := by
    unfold GetEnvByType; simp [h]
  simp [InitEnv, ProcessEntry, HandleType, scalarVariant_declKind, hg,
    variantHolds_scalarVariant]

/-- C7 witness: name `"A"` with default `int 42` against the empty
environment. -/
theorem C7_default_unset_witness :
    GetEnv envNone "A" = "" ∧
    InitEnv envNone [("A", some (scalarVariant (.intV 42)))] Store.empty =
      .ok (Store.empty.set "A" (some (.intV 42))) ∧
    Get (Store.empty.set "A" (some (.intV 42))) (Scalar.intV 42).kind "A" =
      .ok (.intV 42) ∧
    IsType (Store.empty.set "A" (some (.intV 42))) (Scalar.intV 42).kind "A" =
      true :=
  ⟨rfl, (C7_default_unset envNone "A" (.intV 42) Store.empty rfl).1,
   (C7_default_unset envNone "A" (.intV 42) Store.empty rfl).2.2.1,
   (C7_default_unset envNone "A" (.intV 42) Store.empty rfl).2.2.2⟩

/-! ## C1: a DefaultScalar declaration with an unparsable live value

The spec calls default-typed declarations lenient.  In the source,
`HandleType` evaluates `GetEnvByType<ValueType>(env_name)` first, and a
parse failure there throws `EnvBadGet` before any branch of `HandleType`
can store a fallback; `ProcessEntry` rethrows it as `EnvException`, so the
whole `InitEnv` call fails.  The `nullopt` fallback branch of `HandleType`
is reachable only when `GetEnvByType` returns empty-handed without
throwing, i.e. when the variable is absent or empty. -/

/-- An environment where `X` holds text that parses under no numeric or
boolean kind. -/
def envC1 : Env := fun n => if n = "X" then some "abc" else none

/-- C1 counterexample: name `"X"` declared with default `int 42` while the
live value is the non-numeric `"abc"` — `InitEnv` does not complete
successfully, against the claim that default-typed declarations absorb the
parse failure into a `nullopt` entry. -/
theorem C1_counterexample :
    (InitEnv envC1 [("X", some (scalarVariant (.intV 42)))] Store.empty).isOk
      = false ∧
    GetEnv envC1 "X" = "abc" := by
  exact ⟨rfl, rfl⟩

/-- C1 amended: when a declaration carries a `DefaultScalar` and the live
value is present, non-empty, and fails to parse under the default's kind
(all three captured by `GetEnvByType` at the default's kind throwing `e`),
`initialize` fails the whole batch immediately with that parse error and
the failing name writes nothing — default-typed declarations are exactly as
strict as `TypeHint` declarations once a live value is present. -/
theorem C1_amended (env : Env) (n : String) (d : Scalar) (s : Store)
    (rest : Batch) (e : ParseErr)
    (h : GetEnvByType env d.kind n = .error e) :
    InitEnv env ((n, some (scalarVariant d)) :: rest) s =
      .error (⟨n, .parseFail e⟩, s) := by
  simp [InitEnv, ProcessEntry, HandleType, scalarVariant_declKind, h]

/-- C1 amended witness: the counterexample input, run through the amended
statement. -/
theorem C1_amended_witness :
    GetEnvByType envC1 (Scalar.intV 42).kind "X" = .error .invalidFormat ∧
    InitEnv envC1 [("X", some (scalarVariant (.intV 42)))] Store.empty =
      .error (⟨"X", .parseFail .invalidFormat⟩, Store.empty) :=
  ⟨rfl, C1_amended envC1 "X" (.intV 42) Store.empty [] .invalidFormat rfl⟩

/-! ## C2: the `Int32` parse grammar

`GetEnvByType<int>` delegates to `std::stoi`, which converts the longest
numeric prefix and ignores the rest of the text.  `"3.14"` therefore parses
as `3` and initialization succeeds, while the claim — and the repository's
own test `EnvironmentTypePriority` in `src/tests/type_tests.cpp`, which
feeds `TEST_TYPE="3.14"` to an `int_` hint and expects the `InitEnv` call
to throw — require it to fail with `InvalidFormat`.  The overflow half of
the claim does hold: `"2147483648"` fails with the overflow error. -/

/-- The environment of the failing test: `TEST_TYPE` holds `"3.14"`. -/
def envC2 : Env := fun n => if n = "TEST_TYPE" then some "3.14" else none

/-- The environment of the overflow scenario: `TEST_INT` holds
`"2147483648"`. -/
def envC2over : Env := fun n => if n = "TEST_INT" then some "2147483648" else none

/-- C2, evaluated at the failing input: with hint `int_` and live value
`"3.14"`, parsing succeeds with `3` and `InitEnv` completes successfully,
storing `int 3` — where the claim and the repository's own test demand an
`InvalidFormat` failure.  The overflow scenario of the claim does hold:
`"2147483648"` under hint `int_` aborts `InitEnv` with the overflow
error. -/
theorem C2_code_bug_eval :
    GetEnvByType envC2 .int "TEST_TYPE" = .ok (some (.intV 3)) ∧
    (InitEnv envC2 [("TEST_TYPE", some (.vType .int_))] Store.empty).isOk
      = true ∧
    stateOf (InitEnv envC2 [("TEST_TYPE", some (.vType .int_))] Store.empty)
      "TEST_TYPE" = some (some (.intV 3)) ∧
    InitEnv envC2over [("TEST_INT", some (.vType .int_))] Store.empty =
      .error (⟨"TEST_INT", .parseFail .overflow⟩, Store.empty) := by
  exact ⟨rfl, rfl, rfl, rfl⟩

/-! ## C8: the deferred wrapper's fallback accessor -/

/-- C8: `GetW(name).default_value(fb)` is total (`default_value` is
`noexcept` and the model is a total function): it returns the parsed value
exactly when the one-off read and parse succeeded, and the fallback both
when the variable was absent or empty and when parsing threw — the two
causes are indistinguishable on the fallback path.  In particular
`GetW<int>("MISSING").default_value(543)` is `543` in an environment where
`MISSING` is unset. -/
theorem C8_getW_fallback :
    (∀ (env : Env) (k : CfgType) (n : String) (fb v : Scalar),
      GetEnvByType env k n = .ok (some v) → GetW_defaultValue env k n fb = v) ∧
    (∀ (env : Env) (k : CfgType) (n : String) (fb : Scalar),
      GetEnvByType env k n = .ok none → GetW_defaultValue env k n fb = fb) ∧
    (∀ (env : Env) (k : CfgType) (n : String) (fb : Scalar) (e : ParseErr),
      GetEnvByType env k n = .error e → GetW_defaultValue env k n fb = fb) ∧
    GetW_defaultValue envNone .int "MISSING" (.intV 543) = .intV 543 :=
  ⟨fun env k n fb v h => by simp [GetW_defaultValue, h],
   fun env k n fb h => by simp [GetW_defaultValue, h],
   fun env k n fb e h => by simp [GetW_defaultValue, h],
   rfl⟩

/-- C8 witness: the three cases at concrete inputs — a parsable live value,
an unset name, and an unparsable live value all resolved through the
theorem. -/
theorem C8_getW_fallback_witness :
    GetEnvByType envC2 .int "TEST_TYPE" = .ok (some (.intV 3)) ∧
    GetW_defaultValue envC2 .int "TEST_TYPE" (.intV 543) = .intV 3 ∧
    GetEnvByType envNone .int "MISSING" = .ok none ∧
    GetW_defaultValue envNone .int "MISSING" (.intV 543) = .intV 543 ∧
    GetEnvByType envC1 .int "X" = .error .invalidFormat ∧
    GetW_defaultValue envC1 .int "X" (.intV 543) = .intV 543 :=
  ⟨rfl, C8_getW_fallback.1 envC2 .int "TEST_TYPE" (.intV 543) (.intV 3) rfl,
   rfl, C8_getW_fallback.2.1 envNone .int "MISSING" (.intV 543) rfl,
   rfl, C8_getW_fallback.2.2.1 envC1 .int "X" (.intV 543) .invalidFormat rfl⟩

/-! ## C9: frame property of `InitEnv` -/

/-- C9: an `InitEnv` call, whether it returns or throws, leaves the entry
of every name not among the batch's keys exactly as it was — only the names
in the batch are (re)written. -/
theorem C9_initEnv_frame (env : Env) (b : Batch) (s : Store) (n : String)
    (h : n ∉ b.map Prod.fst) :
    stateOf (InitEnv env b s) n = s n := by
  induction b generalizing s with
  | nil => rfl
  | cons entry rest ih =>
    simp only [List.map_cons, List.mem_cons, not_or] at h
    obtain ⟨hne, hrest⟩ := h
    show stateOf (InitEnv env (entry :: rest) s) n = s n
    rw [InitEnv]
    cases hp : ProcessEntry env entry s with
    | error e => rfl
    | ok s₁ =>
      obtain ⟨n₀, d⟩ := entry
      obtain ⟨dv, _, hw⟩ := ProcessEntry_ok hp
      have hs₁ : s₁ n = s n := by
        rcases hw with h1 | ⟨v, h1, _⟩ <;> rw [h1] <;>
          exact Store.set_ne (by simpa using hne)
      simp only []
      rw [ih s₁ (by simpa using hrest), hs₁]

/-- C9 witness: a batch over `"A"` does not disturb the entry of `"Z"`. -/
theorem C9_initEnv_frame_witness :
    "Z" ∉ ([("A", some (scalarVariant (.intV 1)))] : Batch).map Prod.fst ∧
    stateOf (InitEnv envNone [("A", some (scalarVariant (.intV 1)))] storeEx)
      "Z" = storeEx "Z" :=
  ⟨by decide,
   C9_initEnv_frame envNone [("A", some (scalarVariant (.intV 1)))] storeEx
     "Z" (by decide)⟩

/-! ## C10: partial commit on batch abort -/

/-- C10: when `InitEnv` aborts with an error, the store is not rolled back:
the batch splits as `pre ++ failing :: post` where the prefix `pre` was
processed to completion and stands committed (`s'` is exactly the store
after running `pre`), the failing entry is the first to throw, and the
entry of every name of the failing and not-yet-processed entries still
holds its pre-call value (batch keys are unique, as in the source's
`unordered_map`). -/
theorem C10_partial_commit (env : Env) (b : Batch) (s s' : Store)
    (err : InitErr) (hnd : (b.map Prod.fst).Nodup)
    (h : InitEnv env b s = .error (err, s')) :
    ∃ pre entry post, b = pre ++ entry :: post ∧
      InitEnv env pre s = .ok s' ∧
      ProcessEntry env entry s' = .error err ∧
      ∀ m ∈ (entry :: post).map Prod.fst, s' m = s m := by
  induction b generalizing s with
  | nil => exact absurd h (by simp [InitEnv])
  | cons e rest ih =>
    rw [InitEnv] at h
    cases hp : ProcessEntry env e s with
    | error e₀ =>
      rw [hp] at h
      simp only [Except.error.injEq, Prod.mk.injEq] at h
      refine ⟨[], e, rest, rfl, ?_, ?_, ?_⟩
      · rw [← h.2]; rfl
      · rw [← h.1, ← h.2]; exact hp
      · intro m _; rw [← h.2]
    | ok s₁ =>
      rw [hp] at h
      simp only [List.map_cons, List.nodup_cons] at hnd
      obtain ⟨pre, entry, post, hsplit, hpre, hfail, hkeep⟩ :=
        ih s₁ hnd.2 h
      refine ⟨e :: pre, entry, post, by rw [hsplit]; rfl, ?_, hfail, ?_⟩
      · rw [InitEnv, hp]; exact hpre
      · intro m hm
        obtain ⟨dv, _, hw⟩ := (by exact ProcessEntry_ok hp :
          ∃ dv : EnvVariant, e.2 = some dv ∧
            (s₁ = s.set e.1 none ∨
              ∃ v : Scalar, s₁ = s.set e.1 (some v) ∧ v.kind = dv.declKind))
        have hmne : m ≠ e.1 := by
          intro hmeq
          apply hnd.1
          rw [← hmeq]
          have : m ∈ (rest.map Prod.fst) := by
            rw [hsplit]
            simp only [List.map_append, List.map_cons, List.mem_append]
            exact Or.inr (by simpa using hm)
          exact this
        have hs₁ : s₁ m = s m := by
          rcases hw with h1 | ⟨v, h1, _⟩ <;> rw [h1] <;> exact Store.set_ne hmne
        rw [hkeep m hm, hs₁]

/-- An environment driving the C10 witness: `B` holds unparsable text, `A`
is unset. -/
def envC10 : Env := fun n => if n = "B" then some "xx" else none

/-- The two-entry batch of the C10 witness: `A` defaults to `int 1` and
commits, then the `int_` hint on `B` fails to parse. -/
def batchC10 : Batch :=
  [("A", some (scalarVariant (.intV 1))), ("B", some (.vType .int_))]

/-- C10 witness: on the concrete two-entry batch, `InitEnv` aborts at `B`
with the entry for `A` already committed, and the theorem recovers the
split with `B`'s entry untouched. -/
theorem C10_partial_commit_witness :
    (batchC10.map Prod.fst).Nodup ∧
    InitEnv envC10 batchC10 Store.empty =
      .error (⟨"B", .parseFail .invalidFormat⟩,
        Store.empty.set "A" (some (.intV 1))) ∧
    (Store.empty.set "A" (some (.intV 1))) "A" = some (some (.intV 1)) ∧
    (∃ pre entry post, batchC10 = pre ++ entry :: post ∧
      InitEnv envC10 pre Store.empty =
        .ok (Store.empty.set "A" (some (.intV 1))) ∧
      ProcessEntry envC10 entry (Store.empty.set "A" (some (.intV 1))) =
        .error ⟨"B", .parseFail .invalidFormat⟩ ∧
      ∀ m ∈ (entry :: post).map Prod.fst,
        (Store.empty.set "A" (some (.intV 1))) m = Store.empty m) :=
  ⟨by decide, rfl, by decide,
   C10_partial_commit envC10 batchC10 Store.empty
     (Store.empty.set "A" (some (.intV 1)))
     ⟨"B", .parseFail .invalidFormat⟩ (by decide) rfl⟩

/-! ## C5: the kind invariant over every reachable store

To speak about "the declaration in the batch that last wrote a name", the
initialization loop is instrumented with a ghost record mapping each name
to the declaration variant of the entry that last successfully wrote it.
`InitTrace` computes exactly the store `InitEnv` leaves behind (returned or
thrown) while threading that record. -/

/-- Ghost record of the declaration variant that last wrote each name. -/
abbrev LastDecl := String → Option EnvVariant

/-- Update the ghost record at one name. -/
def LastDecl.set (g : LastDecl) (n : String) (dv : EnvVariant) : LastDecl :=
  fun m => if m = n then some dv else g m

/-- `InitEnv` instrumented with the last-writer record: entries are
processed in order, an aborting entry stops the loop writing nothing, and
every successfully processed entry records its declaration variant as the
last writer of its name. -/
def InitTrace (env : Env) : Batch → Store → LastDecl → Store × LastDecl
  | [], s, g => (s, g)
  | (n, d) :: rest, s, g =>
    match ProcessEntry env (n, d) s with
    | .error _ => (s, g)
    | .ok s' =>
      match d with
      | none => (s, g)
      | some dv => InitTrace env rest s' (g.set n dv)

/-- The instrumented loop computes the same store `InitEnv` leaves behind,
whether the call returns or throws. -/
theorem InitTrace_stateOf (env : Env) (b : Batch) (s : Store) (g : LastDecl) :
    (InitTrace env b s g).1 = stateOf (InitEnv env b s) := by
  induction b generalizing s g with
  | nil => rfl
  | cons entry rest ih =>
    obtain ⟨n, d⟩ := entry
    rw [InitTrace, InitEnv]
    cases hp : ProcessEntry env (n, d) s with
    | error e => rfl
    | ok s₁ =>
      cases d with
      | none => exact absurd hp (by simp [ProcessEntry])
      | some dv => exact ih s₁ (g.set n dv)

/-- The store states an `EnvCfg` object can reach: freshly constructed
(empty), or one more `InitEnv` call on a reachable state, paired with the
ghost last-writer record. -/
inductive Reachable : Store → LastDecl → Prop where
  | empty : Reachable Store.empty (fun _ => none)
  | step (env : Env) (b : Batch) {s : Store} {g : LastDecl}
      (h : Reachable s g) :
      Reachable (InitTrace env b s g).1 (InitTrace env b s g).2

/-- The C5 invariant: every resolved value's kind is the declared kind of
the declaration that last wrote its name. -/
def KindInv (s : Store) (g : LastDecl) : Prop :=
  ∀ (n : String) (v : Scalar), s n = some (some v) →
    ∃ dv : EnvVariant, g n = some dv ∧ dv.declKind = v.kind

theorem InitTrace_kindInv (env : Env) (b : Batch) (s : Store) (g : LastDecl)
    (hinv : KindInv s g) :
    KindInv (InitTrace env b s g).1 (InitTrace env b s g).2 := by
  induction b generalizing s g with
  | nil => exact hinv
  | cons entry rest ih =>
    obtain ⟨n, d⟩ := entry
    rw [InitTrace]
    cases hp : ProcessEntry env (n, d) s with
    | error e => exact hinv
    | ok s₁ =>
      obtain ⟨dv, hd, hw⟩ := ProcessEntry_ok hp
      subst hd
      refine ih s₁ (g.set n dv) ?_
      intro m v hm
      by_cases hmn : m = n
      · subst hmn
        rcases hw with h1 | ⟨v₀, h1, hk⟩
        · rw [h1] at hm; simp [Store.set] at hm
        · rw [h1] at hm; simp [Store.set] at hm
          exact ⟨dv, by simp [LastDecl.set], by rw [← hk, hm]⟩
      · rw [LastDecl.set]
        have hsm : s₁ m = s m := by
          rcases hw with h1 | ⟨v₀, h1, _⟩ <;> rw [h1] <;> exact Store.set_ne hmn
        rw [hsm] at hm
        obtain ⟨dv', hg, hk⟩ := hinv m v hm
        exact ⟨dv', by simp [hmn, hg], hk⟩

/-- C5: in every store state reachable by any sequence of `InitEnv` calls
from a fresh `EnvCfg`, every name whose entry resolved to `Some v` holds a
value whose kind is exactly the declared kind (the hint's kind, or the
default's kind) of the declaration that last wrote that name. -/
theorem C5_kind_invariant (s : Store) (g : LastDecl) (h : Reachable s g) :
    ∀ (n : String) (v : Scalar), s n = some (some v) →
      ∃ dv : EnvVariant, g n = some dv ∧ dv.declKind = v.kind := by
  induction h with
  | empty => intro n v hn; exact absurd hn (by simp [Store.empty])
  | step env b h ih => exact InitTrace_kindInv env b _ _ ih

/-- C5 witness: one `InitEnv` step from the fresh store resolves `"A"` from
the default `int 42`; the invariant produces its last writer, whose
declared kind is `int`. -/
theorem C5_kind_invariant_witness :
    Reachable
      (InitTrace envNone [("A", some (scalarVariant (.intV 42)))]
        Store.empty (fun _ => none)).1
      (InitTrace envNone [("A", some (scalarVariant (.intV 42)))]
        Store.empty (fun _ => none)).2 ∧
    (InitTrace envNone [("A", some (scalarVariant (.intV 42)))]
      Store.empty (fun _ => none)).1 "A" = some (some (.intV 42)) ∧
    ∃ dv : EnvVariant,
      (InitTrace envNone [("A", some (scalarVariant (.intV 42)))]
        Store.empty (fun _ => none)).2 "A" = some dv ∧
      dv.declKind = (Scalar.intV 42).kind :=
  ⟨Reachable.step envNone [("A", some (scalarVariant (.intV 42)))]
     Reachable.empty,
   rfl,
   C5_kind_invariant _ _
     (Reachable.step envNone [("A", some (scalarVariant (.intV 42)))]
       Reachable.empty)
     "A" (.intV 42) rfl⟩

end EnvCfgModel
